import Mathlib

/-!
Verification of the TTL cache and content-extraction core of the
minecraft_mcp_server repository.

The development shallowly embeds two source modules:

* `src/minecraft_mcp_server/cache.py` — `CacheEntry`, `CacheManager` with
  `get` / `set` / `invalidate` / `clear` / `_cleanup_expired` / `get_stats`.
  The Python `dict[str, CacheEntry]` is modelled as an association list with
  unique keys (insertion order preserved, as for a Python dict); wall-clock
  time (`datetime.now()`) is passed explicitly as an integer timestamp, and
  TTL arithmetic (`now + timedelta(seconds=ttl)`) becomes integer addition.
  Mutation of `self._cache` becomes explicit state passing: each operation
  returns the updated manager alongside its result.

* `src/minecraft_mcp_server/scraper.py` — `DocumentationScraper._extract_content`.
  The BeautifulSoup document produced by `BeautifulSoup(html, "lxml")` is
  modelled as a concrete tree of element and text nodes; the CSS selectors
  used by the repository (tag names, `.class`, `#id`, and comma-separated
  unions thereof) are interpreted by `selMatches`, and `soup.select_one`
  becomes a first-match pre-order traversal.  `ParsingError` from
  `src/minecraft_mcp_server/exceptions.py` is a structure carrying the
  exception message, and the `try/except` wrapper of `_extract_content`
  becomes a match on the `Except` result of the body.
-/

/-! ## Cache model (`cache.py`) -/

/-- `CacheEntry` from cache.py: a cached payload together with the absolute
timestamp at which it expires.  The payload type is a parameter (Python `Any`). -/
structure CacheEntry (α : Type) where
  data : α
  expires_at : Int
deriving Repr, DecidableEq

/-- `CacheManager` from cache.py: the configured default TTL and the backing
store `self._cache : dict[str, CacheEntry]`, modelled as an association list
in insertion order with unique keys. -/
structure CacheManager (α : Type) where
  default_ttl : Int
  cache : List (String × CacheEntry α)
deriving Repr, DecidableEq

variable {α : Type}

/-- Lookup `self._cache[key]` (first entry whose key matches). -/
def lookupKey : List (String × CacheEntry α) → String → Option (CacheEntry α)
  | [], _ => none
  | (k, e) :: rest, key => if k = key then some e else lookupKey rest key

/-- `del self._cache[key]`: remove the entry for `key` (dict keys are unique,
so removing the first occurrence is removal of the occurrence). -/
def eraseKey : List (String × CacheEntry α) → String → List (String × CacheEntry α)
  | [], _ => []
  | (k, e) :: rest, key => if k = key then rest else (k, e) :: eraseKey rest key

/-- `self._cache[key] = entry`: overwrite in place if the key is present
(a Python dict keeps the key position), append otherwise. -/
def insertEntry : List (String × CacheEntry α) → String → CacheEntry α →
    List (String × CacheEntry α)
  | [], key, e => [(key, e)]
  | (k, e0) :: rest, key, e =>
      if k = key then (key, e) :: rest else (k, e0) :: insertEntry rest key e

/-- `CacheManager.get` (cache.py lines 45–68).  Returns the cached data if the
key is present and unexpired; if the entry is present but `now >= expires_at`
it is deleted as a side effect and the call reports a miss. -/
def CacheManager.get (c : CacheManager α) (key : String) (now : Int) :
    Option α × CacheManager α :=
  match lookupKey c.cache key with
  | none => (none, c)
  | some entry =>
      if now ≥ entry.expires_at then
        (none, { c with cache := eraseKey c.cache key })
      else
        (some entry.data, c)

/-- `CacheManager._cleanup_expired` (cache.py lines 106–118): remove every
entry with `now >= expires_at` from the store. -/
def cleanup_expired (cache : List (String × CacheEntry α)) (now : Int) :
    List (String × CacheEntry α) :=
  cache.filter (fun kv => !(decide (now ≥ kv.2.expires_at)))

/-- `CacheManager.set` (cache.py lines 70–86).  Computes
`expires_at = now + ttl_seconds` (with `ttl_seconds = ttl` when given, else
the default TTL), unconditionally overwrites the entry for `key`, and then —
when the total entry count after insertion is a multiple of 10 — runs the
full expired-entry sweep. -/
def CacheManager.set (c : CacheManager α) (key : String) (data : α)
    (ttl : Option Int) (now : Int) : CacheManager α :=
  let ttl_seconds := ttl.getD c.default_ttl
  let expires_at := now + ttl_seconds
  let cache1 := insertEntry c.cache key { data := data, expires_at := expires_at }
  let cache2 := if cache1.length % 10 = 0 then cleanup_expired cache1 now else cache1
  { c with cache := cache2 }

/-- `CacheManager.invalidate` (cache.py lines 88–98): remove the entry if
present; a no-op when absent. -/
def CacheManager.invalidate (c : CacheManager α) (key : String) : CacheManager α :=
  { c with cache := eraseKey c.cache key }

/-- `CacheManager.clear` (cache.py lines 100–104): remove all entries,
reporting the count removed. -/
def CacheManager.clear (c : CacheManager α) : Nat × CacheManager α :=
  (c.cache.length, { c with cache := [] })

/-- The statistics record returned by `get_stats`. -/
structure CacheStats where
  total_entries : Nat
  active_entries : Nat
  expired_entries : Nat
  default_ttl : Int
deriving Repr, DecidableEq

/-- `CacheManager.get_stats` (cache.py lines 123–139): a full scan counting
the currently expired entries; the store itself is returned untouched, as the
Python method contains no mutating statement. -/
def CacheManager.get_stats (c : CacheManager α) (now : Int) :
    CacheStats × CacheManager α :=
  let total := c.cache.length
  let expired := (c.cache.filter (fun kv => decide (now ≥ kv.2.expires_at))).length
  let active := total - expired
  ({ total_entries := total, active_entries := active,
     expired_entries := expired, default_ttl := c.default_ttl }, c)

/-! ## Association-list lemmas for the store -/

theorem lookupKey_insertEntry_self (cache : List (String × CacheEntry α))
    (key : String) (e : CacheEntry α) :
    lookupKey (insertEntry cache key e) key = some e := by
  induction cache with
  | nil => simp [insertEntry, lookupKey]
  | cons kv rest ih =>
      obtain ⟨k, e0⟩ := kv
      by_cases hk : k = key
      · simp [insertEntry, hk, lookupKey]
      · simp [insertEntry, hk, lookupKey, ih]

theorem lookupKey_filter_of_keep (cache : List (String × CacheEntry α))
    (key : String) (e : CacheEntry α) (p : String × CacheEntry α → Bool)
    (hfind : lookupKey cache key = some e) (hp : p (key, e) = true) :
    lookupKey (cache.filter p) key = some e := by
  induction cache with
  | nil => simp [lookupKey] at hfind
  | cons kv rest ih =>
      obtain ⟨k, e0⟩ := kv
      by_cases hk : k = key
      · subst hk
        simp [lookupKey] at hfind
        subst hfind
        simp [List.filter, hp, lookupKey]
      · simp [lookupKey, hk] at hfind
        cases hkeep : p (k, e0) with
        | true => simp [List.filter, hkeep, lookupKey, hk, ih hfind]
        | false => simp [List.filter, hkeep, ih hfind]

theorem mem_keys_insertEntry (cache : List (String × CacheEntry α))
    (key x : String) (e : CacheEntry α)
    (hx : x ∈ (insertEntry cache key e).map Prod.fst) :
    x = key ∨ x ∈ cache.map Prod.fst := by
  induction cache with
  | nil =>
      simp only [insertEntry, List.map_cons, List.map_nil, List.mem_singleton] at hx
      exact Or.inl hx
  | cons kv rest ih =>
      obtain ⟨k, e0⟩ := kv
      simp only [insertEntry] at hx
      by_cases hk : k = key
      · rw [if_pos hk] at hx
        simp only [List.map_cons, List.mem_cons] at hx
        simp only [List.map_cons, List.mem_cons]
        rcases hx with hx | hx
        · exact Or.inl hx
        · exact Or.inr (Or.inr hx)
      · rw [if_neg hk] at hx
        simp only [List.map_cons, List.mem_cons] at hx
        simp only [List.map_cons, List.mem_cons]
        rcases hx with hx | hx
        · exact Or.inr (Or.inl hx)
        · rcases ih hx with h | h
          · exact Or.inl h
          · exact Or.inr (Or.inr h)

theorem nodup_keys_insertEntry (cache : List (String × CacheEntry α))
    (key : String) (e : CacheEntry α)
    (hnd : (cache.map Prod.fst).Nodup) :
    ((insertEntry cache key e).map Prod.fst).Nodup := by
  induction cache with
  | nil => simp [insertEntry]
  | cons kv rest ih =>
      obtain ⟨k, e0⟩ := kv
      simp only [List.map_cons, List.nodup_cons] at hnd
      simp only [insertEntry]
      by_cases hk : k = key
      · rw [if_pos hk]
        simp only [List.map_cons, List.nodup_cons]
        exact ⟨hk ▸ hnd.1, hnd.2⟩
      · rw [if_neg hk]
        simp only [List.map_cons, List.nodup_cons]
        refine ⟨?_, ih hnd.2⟩
        intro hmem
        rcases mem_keys_insertEntry rest key k e hmem with h | h
        · exact hk h
        · exact hnd.1 h

theorem lookupKey_eq_none_of_not_mem (cache : List (String × CacheEntry α))
    (key : String) (h : key ∉ cache.map Prod.fst) :
    lookupKey cache key = none := by
  induction cache with
  | nil => rfl
  | cons kv rest ih =>
      obtain ⟨k, e0⟩ := kv
      simp only [List.map_cons, List.mem_cons, not_or] at h
      simp only [lookupKey]
      rw [if_neg (fun he : k = key => h.1 he.symm)]
      exact ih h.2

theorem lookupKey_filter_eq_none (cache : List (String × CacheEntry α))
    (key : String) (e : CacheEntry α) (p : String × CacheEntry α → Bool)
    (hnd : (cache.map Prod.fst).Nodup)
    (hfind : lookupKey cache key = some e) (hp : p (key, e) = false) :
    lookupKey (cache.filter p) key = none := by
  induction cache with
  | nil => simp [lookupKey] at hfind
  | cons kv rest ih =>
      obtain ⟨k, e0⟩ := kv
      simp only [List.map_cons, List.nodup_cons] at hnd
      simp only [lookupKey] at hfind
      by_cases hk : k = key
      · rw [if_pos hk] at hfind
        injection hfind with he
        subst he
        have hpk : p (k, e0) = false := by rw [hk]; exact hp
        simp only [List.filter_cons, hpk, Bool.false_eq_true, if_false]
        refine lookupKey_eq_none_of_not_mem _ _ ?_
        intro hmem
        rcases List.mem_map.1 hmem with ⟨pair, hpair, hfst⟩
        have hpr : pair ∈ rest := (List.mem_filter.1 hpair).1
        exact (hk ▸ hnd.1) (hfst ▸ List.mem_map_of_mem Prod.fst hpr)
      · rw [if_neg hk] at hfind
        have hrest := ih hnd.2 hfind
        cases hkeep : p (k, e0) with
        | true =>
            simp only [List.filter_cons, hkeep, if_true, lookupKey]
            rw [if_neg hk]
            exact hrest
        | false =>
            simp only [List.filter_cons, hkeep, Bool.false_eq_true, if_false]
            exact hrest

/-! ## Cache claims -/

/-- Claim C1: for every key and every time `now`, `get(key)` never returns a
stored value whose entry has `expires_at <= now`: a returned value always
comes from an entry with `now < expires_at`, and if the entry for `key` is
present but expired (`now >= expires_at`), `get` deletes that entry from the
store as a side effect and reports a miss. -/
theorem get_never_returns_expired :
    (∀ (c : CacheManager α) (key : String) (now : Int) (v : α) (c2 : CacheManager α),
        c.get key now = (some v, c2) →
        ∃ e, lookupKey c.cache key = some e ∧ now < e.expires_at ∧ v = e.data) ∧
    (∀ (c : CacheManager α) (key : String) (e : CacheEntry α) (now : Int),
        lookupKey c.cache key = some e → e.expires_at ≤ now →
        c.get key now = (none, { c with cache := eraseKey c.cache key })) := by
  constructor
  · intro c key now v c2 h
    cases hl : lookupKey c.cache key with
    | none => simp [CacheManager.get, hl] at h
    | some entry =>
        simp only [CacheManager.get, hl] at h
        by_cases hge : now ≥ entry.expires_at
        · rw [if_pos hge] at h
          simp at h
        · rw [if_neg hge] at h
          rw [Prod.mk.injEq] at h
          injection h.1 with h1
          exact ⟨entry, rfl, lt_of_not_le hge, h1.symm⟩
  · intro c key e now hl hexp
    simp only [CacheManager.get, hl]
    rw [if_pos (show now ≥ e.expires_at from hexp)]

/-- Witness for C1: a live entry is returned with its stored data, and an
expired entry (stored at 5, read at 10) is deleted and reported as a miss. -/
theorem get_never_returns_expired_w :
    (∃ e : CacheEntry Nat,
        lookupKey [("k", { data := 7, expires_at := 99 })] "k" = some e ∧
        (10 : Int) < e.expires_at ∧ 7 = e.data) ∧
    (CacheManager.get { default_ttl := 3600, cache := [("j", { data := 5, expires_at := 4 })] } "j" 10
      = (none, { default_ttl := 3600, cache := [] })) :=
  ⟨get_never_returns_expired.1
      { default_ttl := 3600, cache := [("k", { data := 7, expires_at := 99 })] } "k" 10 7
      { default_ttl := 3600, cache := [("k", { data := 7, expires_at := 99 })] } (by decide),
   get_never_returns_expired.2
      { default_ttl := 3600, cache := [("j", { data := 5, expires_at := 4 })] } "j"
      { data := 5, expires_at := 4 } 10 (by decide) (by decide)⟩

/-- Claim C5: for all `key`, `value` and `ttl > 0`, `set(key, value, ttl)`
immediately followed by `get(key)` at any time before `ttl` has elapsed since
the set returns exactly the stored value. -/
theorem set_get_roundtrip (c : CacheManager α) (key : String) (data : α)
    (ttl now now2 : Int) (httl : 0 < ttl) (hnow : now2 < now + ttl) :
    ((c.set key data (some ttl) now).get key now2).1 = some data := by
  have hlook : lookupKey (insertEntry c.cache key { data := data, expires_at := now + ttl }) key
      = some { data := data, expires_at := now + ttl } :=
    lookupKey_insertEntry_self _ _ _
  have hkeep : (fun kv : String × CacheEntry α => !(decide (now ≥ kv.2.expires_at)))
      (key, { data := data, expires_at := now + ttl }) = true := by
    simp only [Bool.not_eq_true']
    exact decide_eq_false (by omega)
  have h2 := lookupKey_filter_of_keep _ key _
    (fun kv : String × CacheEntry α => !(decide (now ≥ kv.2.expires_at))) hlook hkeep
  simp only [CacheManager.set, Option.getD, cleanup_expired]
  by_cases hlen :
      (insertEntry c.cache key { data := data, expires_at := now + ttl }).length % 10 = 0
  · rw [if_pos hlen]
    simp only [CacheManager.get, h2]
    rw [if_neg (show ¬ now2 ≥ now + ttl by omega)]
  · rw [if_neg hlen]
    simp only [CacheManager.get, hlook]
    rw [if_neg (show ¬ now2 ≥ now + ttl by omega)]

/-- Witness for C5: setting at time 0 with TTL 100 and reading at time 99
returns the stored value. -/
theorem set_get_roundtrip_w :
    ((({ default_ttl := 3600, cache := [] } : CacheManager Nat).set "k" 42 (some 100) 0).get "k" 99).1
      = some 42 :=
  set_get_roundtrip { default_ttl := 3600, cache := [] } "k" 42 100 0 99
    (by decide) (by decide)

/-- Claim C6: `set(key, value, ttl)` with `ttl` zero or negative succeeds and
leaves the entry immediately stale: any subsequent `get(key)` at a time at or
after the set reports a miss, because expiration uses the inclusive comparison
`now >= expires_at`.  (The store is a model of a Python dict, so its keys are
assumed distinct.) -/
theorem set_nonpositive_ttl_stale (c : CacheManager α) (key : String) (data : α)
    (ttl now now2 : Int) (hnd : (c.cache.map Prod.fst).Nodup)
    (httl : ttl ≤ 0) (hnow : now ≤ now2) :
    ((c.set key data (some ttl) now).get key now2).1 = none := by
  have hlook : lookupKey (insertEntry c.cache key { data := data, expires_at := now + ttl }) key
      = some { data := data, expires_at := now + ttl } :=
    lookupKey_insertEntry_self _ _ _
  have hdrop : (fun kv : String × CacheEntry α => !(decide (now ≥ kv.2.expires_at)))
      (key, { data := data, expires_at := now + ttl }) = false := by
    simp only [Bool.not_eq_false']
    exact decide_eq_true (by omega)
  simp only [CacheManager.set, Option.getD, cleanup_expired]
  by_cases hlen :
      (insertEntry c.cache key { data := data, expires_at := now + ttl }).length % 10 = 0
  · rw [if_pos hlen]
    have hnone := lookupKey_filter_eq_none _ key _
      (fun kv : String × CacheEntry α => !(decide (now ≥ kv.2.expires_at)))
      (nodup_keys_insertEntry c.cache key _ hnd) hlook hdrop
    simp only [CacheManager.get, hnone]
  · rw [if_neg hlen]
    simp only [CacheManager.get, hlook]
    rw [if_pos (show now2 ≥ now + ttl by omega)]

/-- Witness for C6: a distinct-keyed store, a set with TTL `-5` at time 0,
and a read at time 0 reports a miss. -/
theorem set_nonpositive_ttl_stale_w :
    ((({ default_ttl := 3600, cache := [("a", { data := 1, expires_at := 50 })] } : CacheManager Nat).set
        "b" 2 (some (-5)) 0).get "b" 0).1 = none :=
  set_nonpositive_ttl_stale
    { default_ttl := 3600, cache := [("a", { data := 1, expires_at := 50 })] }
    "b" 2 (-5) 0 0 (by decide) (by decide) (by decide)

/-- Claim C7 (amended): the sweep fires as a side effect of `set` exactly when
the total entry count after insertion is a multiple of the batch size 10, and
it then removes every currently expired entry store-wide, so no entry with
`now >= expires_at` survives such a `set`.  In particular 10 `set` calls with
distinct keys on an initially empty store purge every expired entry; with
repeated keys the count need not reach a multiple of 10 and expired entries
may survive the 10th `set` (see the counterexample). -/
theorem set_sweep_purges_expired (c : CacheManager α) (key : String) (data : α)
    (ttl : Option Int) (now : Int)
    (hlen : (insertEntry c.cache key
        { data := data, expires_at := now + ttl.getD c.default_ttl }).length % 10 = 0) :
    ∀ kv ∈ (c.set key data ttl now).cache, now < kv.2.expires_at := by
  intro kv hkv
  simp only [CacheManager.set, cleanup_expired] at hkv
  rw [if_pos hlen] at hkv
  have hp := (List.mem_filter.1 hkv).2
  simp only [Bool.not_eq_true', decide_eq_false_iff_not] at hp
  omega

/-- Witness for C7 (amended): inserting a 10th distinct key into a 9-entry
store (one entry of which is already expired) triggers the sweep; the theorem,
applied to the surviving entry for key a2, shows it is live at the sweep time. -/
theorem set_sweep_purges_expired_w :
    (0 : Int) < (CacheEntry.mk (2 : Nat) 50).expires_at :=
  set_sweep_purges_expired (CacheManager.mk 3600
      [("a1", CacheEntry.mk 1 (-1)), ("a2", CacheEntry.mk 2 50),
       ("a3", CacheEntry.mk 3 50), ("a4", CacheEntry.mk 4 50),
       ("a5", CacheEntry.mk 5 50), ("a6", CacheEntry.mk 6 50),
       ("a7", CacheEntry.mk 7 50), ("a8", CacheEntry.mk 8 50),
       ("a9", CacheEntry.mk 9 50)])
    "b" 10 (some 100) 0 (by decide) ("a2", CacheEntry.mk 2 50) (by decide)

/-- Counterexample to claim C7 as stated: a sequence of ten `set` calls with a
mix of already-expired and live entries after which an expired entry is still
in the store.  The tenth call re-sets an existing key, so the entry count stays
at 9 — never a multiple of 10 — and the sweep never fires: the entry for
`"k2"`, expired since time `-5`, survives the tenth `set` made at time 0. -/
theorem tenth_set_leaves_expired_entry :
    lookupKey (CacheManager.cache
        ((((((((((CacheManager.set (CacheManager.mk 3600 ([] : List (String × CacheEntry Nat)))
          "k1" 1 (some 100) 0).set
          "k2" 2 (some (-5)) 0).set
          "k3" 3 (some 100) 0).set
          "k4" 4 (some 100) 0).set
          "k5" 5 (some 100) 0).set
          "k6" 6 (some 100) 0).set
          "k7" 7 (some 100) 0).set
          "k8" 8 (some 100) 0).set
          "k9" 9 (some 100) 0).set
          "k1" 1 (some 100) 0)) "k2"
      = some (CacheEntry.mk 2 (-5)) ∧ (0 : Int) ≥ -5 := by
  constructor
  · decide
  · decide

/-- Claim C8: `get_stats` never mutates the store, and its result satisfies
`total_entries = active_entries + expired_entries`, where `expired_entries`
counts exactly the entries with `now >= expires_at` by a full scan and
`default_ttl` reports the configured default TTL. -/
theorem get_stats_read_only_and_consistent (c : CacheManager α) (now : Int) :
    (c.get_stats now).2 = c ∧
    (c.get_stats now).1.total_entries
      = (c.get_stats now).1.active_entries + (c.get_stats now).1.expired_entries ∧
    (c.get_stats now).1.expired_entries
      = c.cache.countP (fun kv => decide (now ≥ kv.2.expires_at)) ∧
    (c.get_stats now).1.default_ttl = c.default_ttl := by
  refine ⟨rfl, ?_, ?_, rfl⟩
  · simp only [CacheManager.get_stats]
    exact (Nat.sub_add_cancel (List.length_filter_le _ _)).symm
  · simp only [CacheManager.get_stats]
    exact (List.countP_eq_length_filter _ _).symm

/-! ## Content-extractor model (`scraper.py`) -/

/-- Python `str.strip()` (and bs4 `strip=True`): drop leading and trailing
whitespace.  Defined on the character list so that it evaluates inside the
kernel. -/
def strTrim (s : String) : String :=
  ⟨((s.data.dropWhile Char.isWhitespace).reverse.dropWhile Char.isWhitespace).reverse⟩

/-- Helper for `splitOnChar`: accumulates the current piece in reverse. -/
def splitOnCharAux (c : Char) : List Char → List Char → List String
  | [], acc => [⟨acc.reverse⟩]
  | x :: xs, acc =>
      if x == c then ⟨acc.reverse⟩ :: splitOnCharAux c xs []
      else splitOnCharAux c xs (x :: acc)

/-- Python `s.split(sep)` for a one-character separator (`text.split("\n")`,
and the comma of a CSS selector list); on the empty string it yields `[""]`,
as in Python. -/
def splitOnChar (c : Char) (s : String) : List String :=
  splitOnCharAux c s.data []

/-- Python `sep.join(pieces)`. -/
def joinWith (sep : String) : List String → String
  | [] => ""
  | [s] => s
  | s :: rest => s ++ sep ++ joinWith sep rest

/-- Python `s[:n]`: the first `n` characters (codepoints). -/
def strTake (s : String) (n : Nat) : String :=
  ⟨s.data.take n⟩

/-- Whether the string starts with the given character. -/
def firstCharIs (s : String) (c : Char) : Bool :=
  match s.data with
  | [] => false
  | x :: _ => x == c

/-- Python `s[1:]`. -/
def strDropOne (s : String) : String :=
  ⟨s.data.drop 1⟩

/-- A node of the parsed markup tree produced by the markup parser: either a
text node or an element with a tag name, a class list, an optional id
attribute and child nodes. -/
inductive Node : Type where
  | text : String → Node
  | elem : String → List String → Option String → List Node → Node
deriving Repr

/-- Interpretation of one simple CSS selector as used by the repository:
`.c` matches elements carrying class `c`, `#i` matches the element with id
`i`, and a bare name matches the tag name. -/
def simpleMatches (sel tag : String) (classes : List String)
    (idAttr : Option String) : Bool :=
  if firstCharIs sel '.' then classes.contains (strDropOne sel)
  else if firstCharIs sel '#' then idAttr == some (strDropOne sel)
  else tag == sel

/-- Interpretation of a selector string: a comma-separated union of simple
selectors (as in the removal selector `"script, style, nav, footer, aside"`). -/
def selMatches (sel tag : String) (classes : List String)
    (idAttr : Option String) : Bool :=
  ((splitOnChar ',' sel).map strTrim).any
    (fun s => simpleMatches s tag classes idAttr)

mutual

/-- Model of `select_one` restricted to one subtree: the node itself if it
matches, else the first match among its descendants in document order. -/
def selectFromNode (sel : String) : Node → Option Node
  | .text _ => none
  | .elem tag classes idAttr children =>
      if selMatches sel tag classes idAttr then
        some (.elem tag classes idAttr children)
      else selectFromList sel children

/-- Model of `select_one` over a forest, in document order. -/
def selectFromList (sel : String) : List Node → Option Node
  | [] => none
  | n :: ns =>
      match selectFromNode sel n with
      | some m => some m
      | none => selectFromList sel ns

end

/-- Model of `soup.select_one(selector)` (scraper.py line 104) over the parsed
document, a forest of root nodes. -/
def selectOneDoc (doc : List Node) (sel : String) : Option Node :=
  selectFromList sel doc

/-- The removal selector of scraper.py line 115. -/
def unwantedSelectors : String := "script, style, nav, footer, aside"

/-- Whether a node is one of the unwanted elements removed before text
extraction. -/
def isUnwanted : Node → Bool
  | .text _ => false
  | .elem tag classes idAttr _ => selMatches unwantedSelectors tag classes idAttr

mutual

/-- Model of the decompose loop (scraper.py lines 115–116) on one node: every
descendant subtree matching the unwanted selector is removed. -/
def pruneNode : Node → Node
  | .text s => .text s
  | .elem tag classes idAttr children => .elem tag classes idAttr (pruneList children)

/-- Model of the decompose loop on a list of children. -/
def pruneList : List Node → List Node
  | [] => []
  | n :: ns => if isUnwanted n then pruneList ns else pruneNode n :: pruneList ns

end

mutual

/-- The text-node strings of a subtree in document order. -/
def nodeStrings : Node → List String
  | .text s => [s]
  | .elem _ _ _ children => listStrings children

/-- The text-node strings of a forest in document order. -/
def listStrings : List Node → List String
  | [] => []
  | n :: ns => nodeStrings n ++ listStrings ns

end

/-- Model of `get_text(separator="\n", strip=True)` (scraper.py line 119):
each descendant string stripped, empty strings dropped, the rest joined with
a newline. -/
def getTextStripped (n : Node) : String :=
  joinWith "\n" (((nodeStrings n).map strTrim).filter (fun s => s != ""))

/-- The post-match pipeline of `_extract_content` before truncation
(scraper.py lines 114–123): remove unwanted subtrees, extract stripped text,
then drop empty lines, trim each line and rejoin with single newlines. -/
def normalizeNode (n : Node) : String :=
  let cleaned := pruneNode n
  let text := getTextStripped cleaned
  let lines := ((splitOnChar '\n' text).map strTrim).filter (fun s => s != "")
  joinWith "\n" lines

/-- The fixed truncation marker of scraper.py line 130. -/
def truncationMarker : String := "\n\n[Content truncated...]"

/-- The truncation policy of scraper.py lines 126–130: a hard cut at
`max_content_length` characters with the marker appended after the cut. -/
def truncateText (text : String) (maxLen : Nat) : String :=
  if text.length > maxLen then strTake text maxLen ++ truncationMarker else text

/-- Everything `_extract_content` does to a matched node. -/
def finishNode (n : Node) (maxLen : Nat) : String :=
  truncateText (normalizeNode n) maxLen

/-- `ParsingError` from exceptions.py, carrying the exception message
(Python `str(e)`). -/
structure ParsingError where
  message : String
deriving Repr, DecidableEq

/-- Python `str` of a list of strings, as produced by
`f"... {list(selectors.keys())}"`: the names in single quotes, comma-separated,
in square brackets. -/
def pyStrList (names : List String) : String :=
  "[" ++ joinWith ", " (names.map (fun n => "\x27" ++ n ++ "\x27")) ++ "]"

/-- The selector loop of `_extract_content` (scraper.py lines 101–107): try
each named selector in the given order and stop at the first that matches. -/
def extractLoop (doc : List Node) : List (String × String) → Option Node
  | [] => none
  | (_, sel) :: rest =>
      match selectOneDoc doc sel with
      | some n => some n
      | none => extractLoop doc rest

/-- `DocumentationScraper._extract_content` (scraper.py lines 85–136) on an
already-parsed document.  The body walks the selector chain, raises a
`ParsingError` naming the attempted selectors when nothing matches, and
otherwise normalizes and truncates the text of the matched node; the surrounding
`except Exception` handler re-raises any error as a `ParsingError` whose
message embeds the original error text. -/
def extract_content (doc : List Node) (selectors : List (String × String))
    (maxLen : Nat) : Except ParsingError String :=
  let body : Except ParsingError String :=
    match extractLoop doc selectors with
    | none => .error ⟨"Could not find content using selectors: "
        ++ pyStrList (selectors.map Prod.fst)⟩
    | some n => .ok (finishNode n maxLen)
  match body with
  | .ok t => .ok t
  | .error e => .error ⟨"Failed to parse HTML content: " ++ e.message⟩

/-! ## Extractor claims -/

/-- Claim C2: `_extract_content` consults the rules in the given order and
stops at the first rule that yields a match: when no rule in `pre` matches and
`(rname, sel)` matches node `n`, the result is determined by `n` alone, and
the rules in `post` are never consulted — whatever they are, the result is the
same. -/
theorem extract_first_match_wins (doc : List Node) (pre : List (String × String))
    (rname sel : String) (post : List (String × String)) (maxLen : Nat) (n : Node)
    (hpre : ∀ r ∈ pre, selectOneDoc doc r.2 = none)
    (hsel : selectOneDoc doc sel = some n) :
    extract_content doc (pre ++ (rname, sel) :: post) maxLen
      = .ok (finishNode n maxLen) := by
  have hloop : extractLoop doc (pre ++ (rname, sel) :: post) = some n := by
    induction pre with
    | nil => simp [extractLoop, hsel]
    | cons r rest ih =>
        obtain ⟨qn, qs⟩ := r
        have h0 : selectOneDoc doc qs = none := hpre (qn, qs) (by simp)
        simp only [List.cons_append, extractLoop, h0]
        exact ih (fun q hq => hpre q (by simp [hq]))
  simp only [extract_content, hloop]

/-- Witness for C2: with a first rule that does not match, a second that
matches `<main>Hello</main>` and a third that would also match, the result is
the text of the node matched by the second rule. -/
theorem extract_first_match_wins_w :
    extract_content
      [Node.elem "main" [] none [Node.text "Hello"],
       Node.elem "article" [] none [Node.text "Other"]]
      [("content", ".content"), ("main_content", "main"), ("article", "article")] 1000
      = .ok (finishNode (Node.elem "main" [] none [Node.text "Hello"]) 1000) :=
  extract_first_match_wins
    [Node.elem "main" [] none [Node.text "Hello"],
     Node.elem "article" [] none [Node.text "Other"]]
    [("content", ".content")] "main_content" "main" [("article", "article")] 1000
    (Node.elem "main" [] none [Node.text "Hello"])
    (by intro r hr
        rw [List.mem_singleton] at hr
        subst hr
        rfl)
    rfl

/-- Claim C3: when the normalized text of the matched node is longer than
`max_length`, the result is exactly the first `max_length` characters followed
by the fixed marker `"\n\n[Content truncated...]"`; the marker is appended
after the cut and not counted against `max_length` (with `max_length = 0` the
result is the marker alone). -/
theorem extract_truncates (doc : List Node) (selectors : List (String × String))
    (maxLen : Nat) (n : Node)
    (hmatch : extractLoop doc selectors = some n)
    (hlong : maxLen < (normalizeNode n).length) :
    extract_content doc selectors maxLen
      = .ok (strTake (normalizeNode n) maxLen ++ truncationMarker) ∧
    (strTake (normalizeNode n) maxLen).length = maxLen := by
  constructor
  · simp only [extract_content, hmatch, finishNode, truncateText]
    rw [if_pos hlong]
  · show (⟨(normalizeNode n).data.take maxLen⟩ : String).length = maxLen
    simp only [String.length]
    rw [List.length_take]
    have : (normalizeNode n).length = (normalizeNode n).data.length := rfl
    omega

/-- Witness for C3: matched text `"Hello"` with `max_length = 0` gives the
marker alone, preceded by the first 0 characters. -/
theorem extract_truncates_w :
    extract_content [Node.elem "main" [] none [Node.text "Hello"]]
      [("main_content", "main")] 0
      = .ok (strTake (normalizeNode (Node.elem "main" [] none [Node.text "Hello"])) 0
          ++ truncationMarker) ∧
    (strTake (normalizeNode (Node.elem "main" [] none [Node.text "Hello"])) 0).length = 0 :=
  extract_truncates [Node.elem "main" [] none [Node.text "Hello"]]
    [("main_content", "main")] 0 (Node.elem "main" [] none [Node.text "Hello"])
    rfl (by decide)

/-- Claim C4: when no supplied rule matches any node, `_extract_content` fails
with a `ParsingError` whose message names the attempted rule names (wrapped by
the fixed "Failed to parse HTML content: " prefix of the blanket handler), and returns no
value. -/
theorem extract_no_match_error (doc : List Node) (selectors : List (String × String))
    (maxLen : Nat) (hnone : ∀ r ∈ selectors, selectOneDoc doc r.2 = none) :
    extract_content doc selectors maxLen
      = .error ⟨"Failed to parse HTML content: "
          ++ ("Could not find content using selectors: "
              ++ pyStrList (selectors.map Prod.fst))⟩ := by
  have hloop : extractLoop doc selectors = none := by
    induction selectors with
    | nil => rfl
    | cons r rest ih =>
        obtain ⟨qn, qs⟩ := r
        have h0 : selectOneDoc doc qs = none := hnone (qn, qs) (by simp)
        simp only [extractLoop, h0]
        exact ih (fun q hq => hnone q (by simp [hq]))
  simp only [extract_content, hloop]

/-- Witness for C4: the scenario from the spec — markup whose tree contains no
element matching `.content`, rules `[("content", ".content")]` — fails with a
message naming the attempted selector name `content`. -/
theorem extract_no_match_error_w :
    extract_content
      [Node.elem "html" [] none [Node.elem "body" [] none
        [Node.elem "nav" [] none [Node.text "X"],
         Node.elem "main" [] none
           [Node.text "Hello", Node.elem "script" [] none [Node.text "bad()"],
            Node.text "World"]]]]
      [("content", ".content")] 1000
      = .error ⟨"Failed to parse HTML content: "
          ++ ("Could not find content using selectors: " ++ pyStrList ["content"])⟩ :=
  extract_no_match_error
    [Node.elem "html" [] none [Node.elem "body" [] none
      [Node.elem "nav" [] none [Node.text "X"],
       Node.elem "main" [] none
         [Node.text "Hello", Node.elem "script" [] none [Node.text "bad()"],
          Node.text "World"]]]]
    [("content", ".content")] 1000
    (by intro r hr
        rw [List.mem_singleton] at hr
        subst hr
        rfl)

/-- Claim C9: when a rule matches a node whose text content is empty, the
result is the empty string, not a failure. -/
theorem extract_empty_text_ok (doc : List Node) (selectors : List (String × String))
    (maxLen : Nat) (n : Node)
    (hmatch : extractLoop doc selectors = some n)
    (hempty : normalizeNode n = "") :
    extract_content doc selectors maxLen = .ok "" := by
  simp only [extract_content, hmatch, finishNode, truncateText, hempty]
  rw [if_neg (by simp)]

/-- Witness for C9: `<main></main>` matched by the rule `main` yields the
empty string. -/
theorem extract_empty_text_ok_w :
    extract_content [Node.elem "main" [] none []] [("main_content", "main")] 1000
      = .ok "" :=
  extract_empty_text_ok [Node.elem "main" [] none []] [("main_content", "main")]
    1000 (Node.elem "main" [] none []) rfl rfl

/-- Claim C10: extraction failures are always of the ParsingError kind: on
every document and rule list, `_extract_content` either returns a text or
fails with a `ParsingError` whose message embeds the original error text
behind the fixed handler prefix. -/
theorem extract_total_parsing_error (doc : List Node)
    (selectors : List (String × String)) (maxLen : Nat) :
    (∃ t, extract_content doc selectors maxLen = .ok t) ∨
    (∃ m, extract_content doc selectors maxLen
        = .error ⟨"Failed to parse HTML content: " ++ m⟩) := by
  cases hloop : extractLoop doc selectors with
  | some n =>
      exact Or.inl ⟨finishNode n maxLen, by simp only [extract_content, hloop]⟩
  | none =>
      exact Or.inr ⟨"Could not find content using selectors: "
          ++ pyStrList (selectors.map Prod.fst), by simp only [extract_content, hloop]⟩
